import Mathlib

/-!
Verification development for the GitHub release-notes script (`src/main.py`).

The script is a straight-line program: parse a repository URL, fetch a
commit list plus per-commit details and diffs over HTTP, assemble commit
records, build one prompt and invoke a text-generation model once.

Shallow embedding conventions:
* HTTP traffic is modelled by a `GitHubServer` value giving, for each
  endpoint, the status code and body the server would answer with; issued
  requests are logged explicitly so that request-counting and header
  properties can be stated.
* `requests.Response.raise_for_status` becomes `raise_for_status`, an
  `Except` over the status code (errors exactly for statuses 400-599).
* Python exceptions become `Except` results; `None` from `os.getenv`
  becomes `Option String`.
* Machine integers do not occur: commit counts and HTTP statuses are `Nat`
  (Python ints are unbounded; all values here are small and non-negative).
-/

deriving instance DecidableEq for Except

/-! ## Model of `urllib.parse.urlsplit` / `urlparse` (path extraction)

Modelled from CPython (3.11 semantics).  Simplifications, none of which
affect the URLs this program is concerned with: the control-character /
whitespace sanitization added in CPython 3.6.14+ is not modelled (URLs are
assumed free of ASCII control characters, tab, CR, LF), and the unicode
netloc normalization check is not modelled (netlocs are assumed ASCII).
The IPv6 bracket-mismatch `ValueError` is modelled, as is the
`;parameters` splitting that distinguishes `urlparse` from `urlsplit`.
-/

/-- Characters allowed in a URL scheme after the leading letter. -/
def schemeChars : List Char :=
  "abcdefghijklmnopqrstuvwxyzABCDEFGHIJKLMNOPQRSTUVWXYZ0123456789+-.".data

/-- ASCII letter test, matching `str.isascii() and str.isalpha()` on one char. -/
def isAsciiAlpha (c : Char) : Bool :=
  (65 ≤ c.toNat && c.toNat ≤ 90) || (97 ≤ c.toNat && c.toNat ≤ 122)

/-- Python `url.rfind(c)`: index of the last occurrence, if any. -/
def pyRfind (c : Char) (l : List Char) : Option Nat :=
  match l.reverse.findIdx? (fun x => x = c) with
  | some i => some (l.length - 1 - i)
  | none => none

/-- Python `url.find(c, start)`: first occurrence at index ≥ start, if any. -/
def pyFindFrom (c : Char) (l : List Char) (start : Nat) : Option Nat :=
  match (l.drop start).findIdx? (fun x => x = c) with
  | some i => some (start + i)
  | none => none

/-- Result of `urlsplit`/`urlparse` (the `params` component is dropped by
`urlparse` into the path split below and is not carried separately, since
`main.py` only reads `.path`). -/
structure SplitResult where
  scheme : String
  netloc : String
  path : String
  query : String
  fragment : String
deriving Repr, DecidableEq

/-- Model of `urllib.parse.urlsplit` (CPython 3.11): extract the scheme when
the text before the first `:` is a valid scheme, the netloc after `//` up to
the first of `/?#`, then split off the fragment at the first `#` and the
query at the first `?`.  Raises (returns `.error`) on a netloc with
mismatched IPv6 brackets. -/
def urlsplitM (url : String) : Except String SplitResult :=
  let u0 := url.data
  let schemeRest : List Char × List Char :=
    match u0.findIdx? (fun x => x = ':') with
    | some i =>
      if 0 < i && isAsciiAlpha (u0.headD ' ') &&
          (u0.take i).all (fun c => schemeChars.contains c) then
        ((u0.take i).map Char.toLower, u0.drop (i + 1))
      else
        ([], u0)
    | none => ([], u0)
  let scheme := schemeRest.1
  let rest := schemeRest.2
  let netlocRest : List Char × List Char :=
    if rest.take 2 = ['/', '/'] then
      let after := rest.drop 2
      let stop := after.findIdx (fun c => c = '/' || c = '?' || c = '#')
      (after.take stop, after.drop stop)
    else
      ([], rest)
  let netloc := netlocRest.1
  let rest2 := netlocRest.2
  if (netloc.contains '[' && !netloc.contains ']') ||
      (netloc.contains ']' && !netloc.contains '[') then
    Except.error "ValueError: Invalid IPv6 URL"
  else
    let restFrag : List Char × List Char :=
      match rest2.findIdx? (fun x => x = '#') with
      | some i => (rest2.take i, rest2.drop (i + 1))
      | none => (rest2, [])
    let pathQuery : List Char × List Char :=
      match restFrag.1.findIdx? (fun x => x = '?') with
      | some i => (restFrag.1.take i, restFrag.1.drop (i + 1))
      | none => (restFrag.1, [])
    Except.ok
      { scheme := String.mk scheme
        netloc := String.mk netloc
        path := String.mk pathQuery.1
        query := String.mk pathQuery.2
        fragment := String.mk restFrag.2 }

/-- Schemes for which `urlparse` splits `;parameters` off the path
(CPython `uses_params`). -/
def usesParams : List String :=
  ["", "ftp", "hdl", "prospero", "http", "imap", "https", "shttp", "rtsp",
   "rtspu", "sip", "sips", "mms", "sftp", "tel"]

/-- CPython `_splitparams`: drop `;params` from the last path segment.  When
the path contains a `/`, only a `;` at or after the last `/` counts. -/
def splitparams (p : List Char) : List Char :=
  match pyRfind '/' p with
  | some j =>
    match pyFindFrom ';' p j with
    | some i => p.take i
    | none => p
  | none =>
    match p.findIdx? (fun x => x = ';') with
    | some i => p.take i
    | none => p

/-- Model of `urllib.parse.urlparse`: `urlsplit` plus parameter splitting
for schemes in `usesParams`. -/
def urlparseM (url : String) : Except String SplitResult :=
  match urlsplitM url with
  | Except.error e => Except.error e
  | Except.ok r =>
    if r.path.data.contains ';' && usesParams.contains r.scheme then
      Except.ok { r with path := String.mk (splitparams r.path.data) }
    else
      Except.ok r

/-! ## Repository client (`GitHubRepoAnalyzer`) -/

/-- Python `path.strip("/")`: remove all leading and trailing slashes. -/
def pyStripSlashes (s : String) : String :=
  String.mk (((s.data.dropWhile (fun c => c = '/')).reverse.dropWhile
      (fun c => c = '/')).reverse)

/-- Python `str.split(sep)` for a one-character separator, on character
lists: `n` separators yield `n+1` (possibly empty) parts, and the empty
string yields `[""]`. -/
def splitChar (sep : Char) : List Char → List (List Char)
  | [] => [[]]
  | c :: t =>
    match splitChar sep t with
    | [] => [[]]
    | h :: r => if c = sep then [] :: h :: r else (c :: h) :: r

/-- Python `s.split("/")` on a string. -/
def pySplitSlash (s : String) : List String :=
  (splitChar '/' s.data).map (fun l => String.mk l)

/-- The `/`-split of the stripped URL path, as computed inside
`_parse_repo_url` (`path.strip("/").split("/")`).  Interior empty segments
are preserved, exactly as in Python. -/
def pathParts (path : String) : List String :=
  pySplitSlash (pyStripSlashes path)

/-- Embedding of `GitHubRepoAnalyzer._parse_repo_url`: take the first two
components of the `/`-split of the stripped path (`parts[0], parts[1]`).
`.error` models the `IndexError` when fewer than two components exist, and
propagates a `urlparse` error. -/
def _parse_repo_url (repo_url : String) : Except String (String × String) :=
  match urlparseM repo_url with
  | Except.error e => Except.error e
  | Except.ok r =>
    match pathParts r.path with
    | p0 :: p1 :: _ => Except.ok (p0, p1)
    | _ => Except.error "IndexError: list index out of range"

/-- Non-empty segments of the parsed URL path (the notion the specification
speaks about); empty when the URL does not even parse. -/
def nonEmptyPathSegments (url : String) : List String :=
  match urlparseM url with
  | Except.ok r => (pySplitSlash r.path).filter (fun s => s ≠ "")
  | Except.error _ => []

/-! ## HTTP model -/

/-- Python `f"{x}"` on an `os.getenv` result: `None` prints as `"None"`. -/
def pyStrOfOpt : Option String → String
  | some s => s
  | none => "None"

/-- The two headers the script ever sends (`self.headers` is a dict with
exactly the keys `Authorization` and `Accept`). -/
structure Headers where
  authorization : String
  accept : String
deriving Repr, DecidableEq

/-- Headers built in `GitHubRepoAnalyzer.__init__`:
`Bearer {os.getenv(GITHUB_TOKEN)}` and the JSON accept type. -/
def baseHeaders (token : Option String) : Headers :=
  { authorization := "Bearer " ++ pyStrOfOpt token
    accept := "application/vnd.github+json" }

/-- Headers used by `_get_commit_diff`: `{**self.headers, "Accept": diff}`,
i.e. the base headers with only `Accept` replaced. -/
def diffHeaders (token : Option String) : Headers :=
  { baseHeaders token with accept := "application/vnd.github.v3.diff" }

/-- One issued GET request: URL, headers, and query parameters (the script
passes `params` only on the list call). -/
structure HttpRequest where
  url : String
  headers : Headers
  params : List (String × String)
deriving Repr, DecidableEq

/-- An HTTP response: status code plus already-decoded body. -/
structure HttpResponse (α : Type) where
  status : Nat
  body : α
deriving Repr, DecidableEq

/-- Whether `requests.Response.raise_for_status` would raise: client errors
(4xx) and server errors (5xx). -/
def httpFailed {α : Type} (r : HttpResponse α) : Bool :=
  400 ≤ r.status && r.status < 600

/-- Embedding of `response.raise_for_status()` followed by reading the body:
error (carrying the status) for 4xx/5xx, otherwise the body. -/
def raise_for_status {α : Type} (r : HttpResponse α) : Except Nat α :=
  if httpFailed r then Except.error r.status else Except.ok r.body

/-! ## GitHub API data (shapes read by `main.py` from the JSON bodies) -/

/-- The `commit.author` object from the commit-detail response. -/
structure CommitAuthor where
  name : String
  date : String
deriving Repr, DecidableEq

/-- The `commit` object from the commit-detail response. -/
structure CommitInfo where
  message : String
  author : CommitAuthor
deriving Repr, DecidableEq

/-- One element of the `files` array of the commit-detail response
(the fields `_format_file_changes` and the formatting line read). -/
structure FileEntry where
  filename : String
  status : String
  additions : Nat
  deletions : Nat
  changes : Nat
deriving Repr, DecidableEq

/-- The commit-detail response body, restricted to the fields the script
reads (`commit.message`, `commit.author.name`, `commit.author.date`,
`files`). -/
structure CommitDetailResponse where
  commit : CommitInfo
  files : List FileEntry
deriving Repr, DecidableEq

/-- The record assembled per commit by `get_commit_history` (the dict with
keys `sha`, `message`, `author`, `date`, `files`, `diff`). -/
structure CommitRecord where
  sha : String
  message : String
  author : String
  date : String
  files : List String
  diff : String
deriving Repr, DecidableEq

/-- The external GitHub server, as the environment of one run: the branch
commit shas it knows (newest first, as the list endpoint orders them), the
status it answers the list call with, and the full response for the detail
and diff endpoints per sha.  The list body is only read for its `sha`
fields, so it is modelled as the sha list. -/
structure GitHubServer where
  availableCommits : List String
  listStatus : Nat
  detailsOf : String → HttpResponse CommitDetailResponse
  diffOf : String → HttpResponse String

/-- Response of `GET /repos/{o}/{r}/commits?per_page=n&sha=branch`.
Modelled from the GitHub REST semantics the spec relies on: the list
endpoint returns the first `min(per_page, available)` commits of the
branch, newest first. -/
def GitHubServer.listResp (S : GitHubServer) (perPage : Nat) :
    HttpResponse (List String) :=
  { status := S.listStatus, body := S.availableCommits.take perPage }

/-! ## `GitHubRepoAnalyzer` -/

/-- State of a constructed `GitHubRepoAnalyzer` (its `__init__` fields:
`repo_url`, `branch`, the token baked into `self.headers`, and the parsed
`owner`/`repo`). -/
structure Analyzer where
  repo_url : String
  branch : String
  token : Option String
  owner : String
  repo : String
deriving Repr, DecidableEq

/-- Embedding of `GitHubRepoAnalyzer.__init__`: store the configuration and
parse the URL (which can raise, propagated as `.error`). -/
def mkAnalyzer (repo_url branch_name : String) (token : Option String) :
    Except String Analyzer :=
  match _parse_repo_url repo_url with
  | Except.error e => Except.error e
  | Except.ok (o, r) =>
    Except.ok { repo_url := repo_url, branch := branch_name, token := token,
                owner := o, repo := r }

/-- URL of the commit-list endpoint
(`f"https://api.github.com/repos/{owner}/{repo}/commits"`). -/
def commitsUrl (owner repo : String) : String :=
  "https://api.github.com/repos/" ++ owner ++ "/" ++ repo ++ "/commits"

/-- URL of the single-commit endpoint
(`f"https://api.github.com/repos/{owner}/{repo}/commits/{sha}"`). -/
def commitUrl (owner repo sha : String) : String :=
  "https://api.github.com/repos/" ++ owner ++ "/" ++ repo ++ "/commits/" ++ sha

/-- Embedding of `_get_commit_details`: the request it issues and the
outcome of `raise_for_status` + `response.json()`. -/
def _get_commit_details (A : Analyzer) (S : GitHubServer) (sha : String) :
    HttpRequest × Except Nat CommitDetailResponse :=
  ({ url := commitUrl A.owner A.repo sha, headers := baseHeaders A.token,
     params := [] },
   raise_for_status (S.detailsOf sha))

/-- Embedding of `_get_commit_diff`: same URL, diff accept header, and the
outcome of `raise_for_status` + `response.text`. -/
def _get_commit_diff (A : Analyzer) (S : GitHubServer) (sha : String) :
    HttpRequest × Except Nat String :=
  ({ url := commitUrl A.owner A.repo sha, headers := diffHeaders A.token,
     params := [] },
   raise_for_status (S.diffOf sha))

/-- One formatted entry of the `files` field:
`f"{f[filename]} ({f[changes]} changes)"`. -/
def formatFile (f : FileEntry) : String :=
  f.filename ++ " (" ++ toString f.changes ++ " changes)"

/-- The loop body of `get_commit_history` over the shas of the list
response, in program order: details call (then the file formatting), diff
call, append the record; the first `raise_for_status` failure aborts.
Returns the requests issued and either the records or the error. -/
def processCommits (A : Analyzer) (S : GitHubServer) :
    List String → List HttpRequest × Except Nat (List CommitRecord)
  | [] => ([], Except.ok [])
  | sha :: rest =>
    let det := _get_commit_details A S sha
    match det.2 with
    | Except.error e => ([det.1], Except.error e)
    | Except.ok detBody =>
      let formatted := detBody.files.map formatFile
      let dif := _get_commit_diff A S sha
      match dif.2 with
      | Except.error e => ([det.1, dif.1], Except.error e)
      | Except.ok diffText =>
        let tail := processCommits A S rest
        (det.1 :: dif.1 :: tail.1,
         match tail.2 with
         | Except.error e => Except.error e
         | Except.ok recs =>
           Except.ok ({ sha := sha, message := detBody.commit.message,
                        author := detBody.commit.author.name,
                        date := detBody.commit.author.date,
                        files := formatted, diff := diffText } :: recs))

/-- Embedding of `get_commit_history`: one list call (with `per_page` and
`sha` parameters), `raise_for_status`, then the per-commit loop.  The first
component logs every request issued, in order; the second is the Python
return value or the propagated exception (carrying the HTTP status). -/
def get_commit_history (A : Analyzer) (S : GitHubServer)
    (max_commits : Nat) : List HttpRequest × Except Nat (List CommitRecord) :=
  let listReq : HttpRequest :=
    { url := commitsUrl A.owner A.repo, headers := baseHeaders A.token,
      params := [("per_page", toString max_commits), ("sha", A.branch)] }
  match raise_for_status (S.listResp max_commits) with
  | Except.error e => ([listReq], Except.error e)
  | Except.ok shas =>
    let rest := processCommits A S shas
    (listReq :: rest.1, rest.2)

/-- Discriminator for `Except` results (used to state that a run produced
no value). -/
def exceptIsOk {ε α : Type} : Except ε α → Bool
  | Except.ok _ => true
  | Except.error _ => false

/-! ## Python `str` serialization of the commit list

The prompt interpolates `{commits}`, i.e. `str` of a list of dicts of
strings.  This is Python `repr` recursively; the string `repr` below is
faithful for ASCII content (for non-ASCII printables Python would also
print the character itself, but unicode printability classes are not
modelled). -/

/-- Lowercase hex digit. -/
def hexDigitChar (n : Nat) : Char :=
  if n < 10 then Char.ofNat (48 + n) else Char.ofNat (87 + n)

/-- Escape one character of a Python string `repr` quoted with `q`. -/
def pyReprEscape (q c : Char) : String :=
  if c = '\\' then "\\\\"
  else if c = q then "\\" ++ String.mk [q]
  else if c = '\n' then "\\n"
  else if c = '\r' then "\\r"
  else if c = '\t' then "\\t"
  else if c.toNat < 32 || c.toNat = 127 then
    "\\x" ++ String.mk [hexDigitChar (c.toNat / 16), hexDigitChar (c.toNat % 16)]
  else String.mk [c]

/-- Python `repr` of a string: single-quoted, unless the string contains a
single quote and no double quote. -/
def pyReprStr (s : String) : String :=
  let sq : Char := Char.ofNat 39
  let q : Char := if s.data.contains sq && !s.data.contains '"' then '"' else sq
  String.mk [q] ++ String.join (s.data.map (fun c => pyReprEscape q c)) ++
    String.mk [q]

/-- Python `repr` of a list given the reprs of its elements. -/
def pyReprList (xs : List String) : String :=
  "[" ++ String.intercalate ", " xs ++ "]"

/-- Python `repr` of one commit dict, keys in insertion order
(`sha`, `message`, `author`, `date`, `files`, `diff`). -/
def pyReprCommitRecord (r : CommitRecord) : String :=
  "\x7b\x27sha\x27: " ++ pyReprStr r.sha ++
    ", \x27message\x27: " ++ pyReprStr r.message ++
    ", \x27author\x27: " ++ pyReprStr r.author ++
    ", \x27date\x27: " ++ pyReprStr r.date ++
    ", \x27files\x27: " ++ pyReprList (r.files.map pyReprStr) ++
    ", \x27diff\x27: " ++ pyReprStr r.diff ++ "\x7d"

/-- Python `str(commits)` as interpolated into the prompt f-string. -/
def serializeCommits (commits : List CommitRecord) : String :=
  pyReprList (commits.map pyReprCommitRecord)

/-! ## Notes generator (`generate_release_notes`) -/

/-- Constructor arguments of the `ChatGoogleGenerativeAI` client.  The
temperature is the exact rational 0.2 (float rounding is irrelevant here:
no claim inspects the numeric value). -/
structure LLMSetup where
  model : String
  temperature : ℚ
deriving Repr, DecidableEq

/-- The fixed client configuration built at the top of
`generate_release_notes`. -/
def releaseNotesLLM : LLMSetup :=
  { model := "gemini-1.5-flash-latest", temperature := 0.2 }

/-- The f-string text before `{commits}`, byte-for-byte (including the
trailing space on the first line and the 4-space indentation). -/
def promptHead : String :=
  "Analyze these GitHub commits from a specific branch and generate detailed release notes. \n    Focus on:\n    - Code changes in diffs\n    - File modification types (added/modified/deleted)\n    - Commit message patterns\n    - Impact analysis of changes\n\n    Structure:\n    1. Overview of changes\n    2. Technical breakdown by category\n    3. Notable code modifications\n    4. Files changed summary\n\n    Commits to analyze:\n    "

/-- The f-string text after `{commits}`, byte-for-byte. -/
def promptTail : String :=
  "\n    \n    Output in markdown with technical depth. Highlight significant code changes.\n    "

/-- The prompt value: template with `str(commits)` interpolated. -/
def buildPrompt (commitsText : String) : String :=
  promptHead ++ commitsText ++ promptTail

/-- Embedding of `generate_release_notes`.  The external model is the
function `invoke` (prompt to generated text); the first component logs the
prompts passed to `llm.invoke`, in order, and the second is the returned
`response.content`. -/
def generate_release_notes (invoke : String → String)
    (commits : List CommitRecord) : List String × String :=
  let prompt := buildPrompt (serializeCommits commits)
  ([prompt], invoke prompt)

/-! ## The `__main__` block -/

/-- The environment variables the script reads (`os.getenv` results). -/
structure Env where
  REPO_URL : Option String
  MAX_COMMITS : Option String
  BRANCH_NAME : Option String
  GITHUB_TOKEN : Option String
deriving Repr, DecidableEq

/-- Python `int(s)` on a string, as an `Except` (`ValueError` on bad
input).  Approximation: surrounding whitespace is accepted as in Python;
underscores between digits and a leading `+` are not modelled (no claim
depends on them). -/
def pyInt (s : String) : Except String Int :=
  match s.trim.toInt? with
  | some n => Except.ok n
  | none =>
    Except.error ("ValueError: invalid literal for int() with base 10: " ++
      pyReprStr s)

/-- Line 103: `MAX_COMMITS = int(os.getenv("MAX_COMMITS", 2))` — the
default 2 is used when the variable is absent, otherwise the string is
converted (which can raise). -/
def resolveMaxCommits (env : Env) : Except String Int :=
  match env.MAX_COMMITS with
  | none => Except.ok 2
  | some s => pyInt s

/-- Python truthiness of an `os.getenv` result, as used by
`all([REPO_URL, BRANCH_NAME])`: `None` and the empty string are falsy. -/
def pyTruthy : Option String → Bool
  | none => false
  | some s => s ≠ ""

/-- Embedding of the `__main__` block, printing and file writing omitted
(out of scope per the spec): read the configuration (the `int` conversion
of line 103 runs before the required-variable check), validate
`REPO_URL`/`BRANCH_NAME` truthiness, construct the analyzer (URL parsing
can raise), fetch the history, and generate the notes.  Returns the HTTP
requests issued, the model prompts issued, and the final
`release_notes` or the exception that terminated the run.  A negative
configured count reaches the server model clamped at 0 (GitHub rejects
negative `per_page`; never exercised here). -/
def mainRun (env : Env) (S : GitHubServer) (invoke : String → String) :
    List HttpRequest × List String × Except String String :=
  match resolveMaxCommits env with
  | Except.error e => ([], [], Except.error e)
  | Except.ok m =>
    if pyTruthy env.REPO_URL && pyTruthy env.BRANCH_NAME then
      match env.REPO_URL, env.BRANCH_NAME with
      | some url, some br =>
        (match mkAnalyzer url br env.GITHUB_TOKEN with
         | Except.error e => ([], [], Except.error e)
         | Except.ok A =>
           let hist := get_commit_history A S m.toNat
           match hist.2 with
           | Except.error st =>
             (hist.1, [],
              Except.error ("requests.exceptions.HTTPError: status " ++
                toString st))
           | Except.ok recs =>
             let gen := generate_release_notes invoke recs
             (hist.1, gen.1, Except.ok gen.2))
      | _, _ =>
        -- unreachable: truthiness of an `Option String` forces `some`
        ([], [],
         Except.error "ValueError: Missing required environment variables: REPO_URL, BRANCH_NAME")
    else
      ([], [],
       Except.error "ValueError: Missing required environment variables: REPO_URL, BRANCH_NAME")

/-! ## Concrete run data (used by witnesses and counterexamples) -/

/-- A healthy two-commit server. -/
def S₀ : GitHubServer :=
  { availableCommits := ["sha1", "sha2"]
    listStatus := 200
    detailsOf := fun sha =>
      { status := 200
        body := { commit := { message := "msg " ++ sha,
                              author := { name := "Alice",
                                          date := "2024-05-01T00:00:00Z" } }
                  files := [{ filename := "a.py", status := "modified",
                              additions := 2, deletions := 1, changes := 3 }] } }
    diffOf := fun sha => { status := 200, body := "diff " ++ sha } }

/-- The same server with a failing list endpoint. -/
def S₁ : GitHubServer := { S₀ with listStatus := 404 }

/-- The same healthy server with a single available commit. -/
def S₂ : GitHubServer := { S₀ with availableCommits := ["sha1"] }

/-- A constructed analyzer for `https://github.com/octo/repo`, no token. -/
def A₀ : Analyzer :=
  { repo_url := "https://github.com/octo/repo", branch := "main",
    token := none, owner := "octo", repo := "repo" }

/-- One concrete successful history run. -/
def histRun₀ : List HttpRequest × Except Nat (List CommitRecord) :=
  get_commit_history A₀ S₀ 5

/-- The records of that run (defaulting to `[]`, never hit: the run
succeeds). -/
def recs₀ : List CommitRecord :=
  match histRun₀.2 with
  | Except.ok l => l
  | Except.error _ => []

/-- All-empty commit record, used as a `getD` default. -/
def blankRecord : CommitRecord :=
  { sha := "", message := "", author := "", date := "", files := [], diff := "" }

/-- The first record of the concrete run. -/
def recHead₀ : CommitRecord := recs₀.getD 0 blankRecord

/-- All-empty request, used as a `getD` default. -/
def blankRequest : HttpRequest :=
  { url := "", headers := { authorization := "", accept := "" }, params := [] }

/-- The first request of the concrete run (the list call). -/
def listReq₀ : HttpRequest := histRun₀.1.getD 0 blankRequest

/-- Boolean infix test on character lists (`pat` occurs contiguously in the
second list). -/
def listInfix (pat : List Char) : List Char → Bool
  | [] => pat.isEmpty
  | c :: t => pat.isPrefixOf (c :: t) || listInfix pat t

/-- Whether `pat` occurs as a substring of `s` (used to state that the
prompt contains the fixed template sections). -/
def containsSubstr (s pat : String) : Bool := listInfix pat.data s.data

/-- Environment with `REPO_URL` and `MAX_COMMITS` absent (concrete
configuration-error input). -/
def env₀ : Env :=
  { REPO_URL := none, MAX_COMMITS := none, BRANCH_NAME := some "main",
    GITHUB_TOKEN := none }

/-! ## Helper lemmas -/

theorem listInfix_iff (pat : List Char) :
    ∀ l : List Char, listInfix pat l = true ↔ pat <:+: l := by
  intro l
  induction l with
  | nil => simp [listInfix, List.isEmpty_iff, List.infix_nil]
  | cons c t ih =>
    simp [listInfix, Bool.or_eq_true, List.isPrefixOf_iff_prefix, ih,
      List.infix_cons_iff]

/-- A substring of the fixed head of the template occurs in every built
prompt, whatever commits text is interpolated. -/
theorem containsSubstr_buildPrompt (s pat : String)
    (h : containsSubstr promptHead pat = true) :
    containsSubstr (buildPrompt s) pat = true := by
  unfold containsSubstr at h ⊢
  rw [listInfix_iff] at h ⊢
  unfold buildPrompt
  rw [String.data_append, String.data_append]
  rcases h with ⟨u, v, hv⟩
  exact ⟨u, v ++ (s.data ++ promptTail.data), by rw [← hv]; simp⟩

theorem raise_for_status_ok {α : Type} (r : HttpResponse α) (b : α)
    (h : raise_for_status r = Except.ok b) : b = r.body := by
  unfold raise_for_status at h
  split at h
  · exact absurd h (by simp)
  · exact (Except.ok.inj h).symm

theorem raise_for_status_of_failed {α : Type} (r : HttpResponse α)
    (h : httpFailed r = true) : raise_for_status r = Except.error r.status := by
  unfold raise_for_status
  simp [h]

theorem raise_for_status_ok_not_failed {α : Type} (r : HttpResponse α) (b : α)
    (h : raise_for_status r = Except.ok b) : httpFailed r = false := by
  by_cases hf : httpFailed r = true
  · rw [raise_for_status_of_failed r hf] at h
    cases h
  · simpa using hf

/-- Characterization of a successful pass of the per-commit loop: the
records carry the shas in order, two requests were issued per sha, and each
record's `files` field is the formatted file list of its detail response. -/
theorem processCommits_ok_spec (A : Analyzer) (S : GitHubServer) :
    ∀ (shas : List String) (log : List HttpRequest) (recs : List CommitRecord),
      processCommits A S shas = (log, Except.ok recs) →
      recs.map CommitRecord.sha = shas ∧ log.length = 2 * shas.length ∧
        ∀ r ∈ recs, r.files = ((S.detailsOf r.sha).body.files).map formatFile := by
  intro shas
  induction shas with
  | nil =>
    intro log recs h
    rw [processCommits] at h
    injection h with h1 h2
    injection h2 with h2
    subst h1
    subst h2
    simp
  | cons sha rest ih =>
    intro log recs h
    rw [processCommits] at h
    rcases hdet : (_get_commit_details A S sha).2 with e | detBody <;>
      simp only [hdet] at h
    · injection h with h1 h2
      cases h2
    rcases hdif : (_get_commit_diff A S sha).2 with e | diffText <;>
      simp only [hdif] at h
    · injection h with h1 h2
      cases h2
    rcases htail : processCommits A S rest with ⟨tlog, tres⟩
    simp only [htail] at h
    rcases tres with e | trecs
    · injection h with h1 h2
      cases h2
    injection h with h1 h2
    injection h2 with h2
    obtain ⟨hsha, hlen, hfiles⟩ := ih tlog trecs htail
    subst h1
    subst h2
    refine ⟨by simp [hsha], ?_, ?_⟩
    · simp only [List.length_cons, hlen]
      omega
    · intro r hr
      rcases List.mem_cons.mp hr with rfl | hr
      · have hbody : detBody = (S.detailsOf sha).body :=
          raise_for_status_ok (S.detailsOf sha) detBody hdet
        simp [hbody]
      · exact hfiles r hr

/-- Every request of the per-commit loop (also on failing runs) carries the
bearer authorization header. -/
theorem processCommits_auth (A : Analyzer) (S : GitHubServer) :
    ∀ (shas : List String), ∀ req ∈ (processCommits A S shas).1,
      req.headers.authorization = "Bearer " ++ pyStrOfOpt A.token := by
  intro shas
  induction shas with
  | nil =>
    intro req hreq
    rw [processCommits] at hreq
    simp at hreq
  | cons sha rest ih =>
    intro req hreq
    rw [processCommits] at hreq
    rcases hdet : (_get_commit_details A S sha).2 with e | detBody <;>
      simp only [hdet] at hreq
    · simp only [List.mem_singleton] at hreq
      subst hreq
      rfl
    rcases hdif : (_get_commit_diff A S sha).2 with e | diffText <;>
      simp only [hdif] at hreq
    · simp only [List.mem_cons, List.not_mem_nil, or_false] at hreq
      rcases hreq with rfl | rfl <;> rfl
    · simp only [List.mem_cons] at hreq
      rcases hreq with rfl | rfl | h
      · rfl
      · rfl
      · exact ih req h

/-- If the detail or diff endpoint fails for any sha of the list, the
per-commit loop ends in an error. -/
theorem processCommits_fails (A : Analyzer) (S : GitHubServer) :
    ∀ (shas : List String) (sha : String), sha ∈ shas →
      (httpFailed (S.detailsOf sha) = true ∨ httpFailed (S.diffOf sha) = true) →
      exceptIsOk (processCommits A S shas).2 = false := by
  intro shas
  induction shas with
  | nil =>
    intro sha h
    simp at h
  | cons a rest ih =>
    intro sha hmem hfail
    rw [processCommits]
    rcases hdet : (_get_commit_details A S a).2 with e | detBody <;>
      simp only [hdet]
    · rfl
    rcases hdif : (_get_commit_diff A S a).2 with e | diffText <;>
      simp only [hdif]
    · rfl
    rcases List.mem_cons.mp hmem with rfl | hmem2
    · have h1 := raise_for_status_ok_not_failed (S.detailsOf sha) detBody hdet
      have h2 := raise_for_status_ok_not_failed (S.diffOf sha) diffText hdif
      rcases hfail with hf | hf
      · simp [h1] at hf
      · simp [h2] at hf
    · have htail := ih sha hmem2 hfail
      rcases htres : (processCommits A S rest).2 with e | trecs <;>
        simp only [htres]
      · rfl
      · rw [htres] at htail
        simp [exceptIsOk] at htail

/-! ## Claim C1 -/

/-- C1: on a successful run, `get_commit_history(N)` returns exactly
`min(N, number of available commits)` records — one per commit entry of the
list response, carrying the same shas in the same order. -/
theorem get_commit_history_count (A : Analyzer) (S : GitHubServer) (N : Nat)
    (log : List HttpRequest) (recs : List CommitRecord)
    (h : get_commit_history A S N = (log, Except.ok recs)) :
    recs.length = min N S.availableCommits.length ∧
      recs.map CommitRecord.sha = S.availableCommits.take N := by
  rw [get_commit_history] at h
  rcases hl : raise_for_status (S.listResp N) with e | shas <;>
    simp only [hl] at h
  · injection h with h1 h2
    cases h2
  rcases hp : processCommits A S shas with ⟨plog, pres⟩
  simp only [hp] at h
  injection h with h1 h2
  subst h1
  rcases pres with e | precs
  · cases h2
  injection h2 with h2
  subst h2
  have hbody := raise_for_status_ok (S.listResp N) shas hl
  obtain ⟨hsha, _, _⟩ := processCommits_ok_spec A S shas plog precs hp
  constructor
  · have hl2 := congrArg List.length hsha
    simp only [List.length_map] at hl2
    rw [hl2, hbody]
    exact List.length_take ..
  · rw [hsha, hbody]
    rfl

/-- Witness for C1 at a concrete analyzer/server (two commits available,
five requested). -/
theorem get_commit_history_count_witness :
    recs₀.length = min 5 S₀.availableCommits.length ∧
      recs₀.map CommitRecord.sha = S₀.availableCommits.take 5 :=
  get_commit_history_count A₀ S₀ 5 histRun₀.1 recs₀ rfl

/-! ## Claim C2 -/

/-- C2: on a successful run, each returned record's `files` field is the
file list of that commit's detail response, in order, each entry formatted
as `"<filename> (<changes> changes)"` (`formatFile`). -/
theorem get_commit_history_files (A : Analyzer) (S : GitHubServer) (N : Nat)
    (log : List HttpRequest) (recs : List CommitRecord)
    (h : get_commit_history A S N = (log, Except.ok recs)) :
    ∀ r ∈ recs, r.files = ((S.detailsOf r.sha).body.files).map formatFile := by
  rw [get_commit_history] at h
  rcases hl : raise_for_status (S.listResp N) with e | shas <;>
    simp only [hl] at h
  · injection h with h1 h2
    cases h2
  rcases hp : processCommits A S shas with ⟨plog, pres⟩
  simp only [hp] at h
  injection h with h1 h2
  subst h1
  rcases pres with e | precs
  · cases h2
  injection h2 with h2
  subst h2
  exact (processCommits_ok_spec A S shas plog precs hp).2.2

/-- Witness for C2: the first record of the concrete successful run. -/
theorem get_commit_history_files_witness :
    recHead₀.files = ((S₀.detailsOf recHead₀.sha).body.files).map formatFile :=
  get_commit_history_files A₀ S₀ 5 histRun₀.1 recs₀ rfl recHead₀ (by decide)

/-! ## Claim C3 -/

/-- C3: if the list call fails, or the detail or diff call of any commit in
the list response fails (4xx/5xx), `get_commit_history` propagates the
error and returns no records at all. -/
theorem get_commit_history_failfast (A : Analyzer) (S : GitHubServer) (N : Nat)
    (h : httpFailed (S.listResp N) = true ∨
      ∃ sha ∈ S.availableCommits.take N,
        httpFailed (S.detailsOf sha) = true ∨ httpFailed (S.diffOf sha) = true) :
    exceptIsOk (get_commit_history A S N).2 = false := by
  rw [get_commit_history]
  rcases h with hl | ⟨sha, hmem, hfail⟩
  · rw [raise_for_status_of_failed _ hl]
    rfl
  · rcases hl : raise_for_status (S.listResp N) with e | shas <;> simp only [hl]
    · rfl
    · have hbody := raise_for_status_ok (S.listResp N) shas hl
      have hmem2 : sha ∈ shas := by
        rw [hbody]
        exact hmem
      exact processCommits_fails A S shas sha hmem2 hfail

/-- Witness for C3: the concrete server whose list endpoint answers 404. -/
theorem get_commit_history_failfast_witness :
    exceptIsOk (get_commit_history A₀ S₁ 5).2 = false :=
  get_commit_history_failfast A₀ S₁ 5 (Or.inl (by decide))

/-! ## Claim C4 -/

/-- Counterexample for C4: for `https://github.com/octo/` + `/repo` with a
doubled slash, the path has two non-empty segments (`octo`, `repo`), yet
`_parse_repo_url` returns `("octo", "")` — the raw second split component,
not the second non-empty segment.  The claim as stated is false. -/
theorem parse_url_counterexample :
    nonEmptyPathSegments "https://github.com/octo//repo" = ["octo", "repo"] ∧
      _parse_repo_url "https://github.com/octo//repo" = Except.ok ("octo", "") ∧
      (("octo" : String), ("" : String)) ≠ (("octo" : String), ("repo" : String)) := by
  refine ⟨by decide, by decide, by decide⟩

/-- C4 (amended): for every repository URL whose path, stripped of leading
and trailing slashes and split on `/`, has at least two components, parsing
yields owner and name equal to the first two components of that split
(which may be empty, and coincide with the first two non-empty segments
only when they are themselves non-empty). -/
theorem parse_url_first_two_components (url : String) (r : SplitResult)
    (p0 p1 : String) (rest : List String)
    (hu : urlparseM url = Except.ok r)
    (hs : pathParts r.path = p0 :: p1 :: rest) :
    _parse_repo_url url = Except.ok (p0, p1) := by
  unfold _parse_repo_url
  simp only [hu, hs]

/-- Witness for the amended C4 at a concrete well-formed URL. -/
theorem parse_url_first_two_components_witness :
    _parse_repo_url "https://github.com/octo/repo" = Except.ok ("octo", "repo") :=
  parse_url_first_two_components "https://github.com/octo/repo"
    { scheme := "https", netloc := "github.com", path := "/octo/repo",
      query := "", fragment := "" }
    "octo" "repo" [] (by decide) (by decide)

/-! ## Claim C5 -/

/-- Counterexample for C5: with one available commit and `maxCount = 2` the
run succeeds after 3 HTTP requests, not `1 + 2*maxCount = 5`. -/
theorem request_count_counterexample :
    exceptIsOk (get_commit_history A₀ S₂ 2).2 = true ∧
      (get_commit_history A₀ S₂ 2).1.length = 3 ∧ 3 ≠ 1 + 2 * 2 := by
  refine ⟨by decide, by decide, by decide⟩

/-- C5 (amended): a successful run of `get_commit_history(maxCount)` issues
exactly `1 + 2*k` HTTP requests, where `k = min(maxCount, available
commits)` is the number of entries in the list response. -/
theorem request_count_successful (A : Analyzer) (S : GitHubServer) (N : Nat)
    (log : List HttpRequest) (recs : List CommitRecord)
    (h : get_commit_history A S N = (log, Except.ok recs)) :
    log.length = 1 + 2 * min N S.availableCommits.length := by
  rw [get_commit_history] at h
  rcases hl : raise_for_status (S.listResp N) with e | shas <;>
    simp only [hl] at h
  · injection h with h1 h2
    cases h2
  rcases hp : processCommits A S shas with ⟨plog, pres⟩
  simp only [hp] at h
  injection h with h1 h2
  subst h1
  rcases pres with e | precs
  · cases h2
  have hbody := raise_for_status_ok (S.listResp N) shas hl
  obtain ⟨_, hlen, _⟩ := processCommits_ok_spec A S shas plog precs hp
  have hshlen : shas.length = min N S.availableCommits.length := by
    rw [hbody]
    exact List.length_take ..
  simp only [List.length_cons, hlen, hshlen]
  omega

/-- Witness for the amended C5 on the concrete successful run (list call
answers 2 of the 5 requested commits: 5 requests in total). -/
theorem request_count_successful_witness :
    histRun₀.1.length = 1 + 2 * min 5 S₀.availableCommits.length :=
  request_count_successful A₀ S₀ 5 histRun₀.1 recs₀ rfl

/-! ## Claim C6 -/

/-- C6: a missing repository URL or branch name makes the program raise
before it issues any HTTP request or model call; and when `MAX_COMMITS` is
not configured, the commit count resolves to the default 2. -/
theorem config_validation (env : Env) (S : GitHubServer)
    (invoke : String → String) :
    ((env.REPO_URL = none ∨ env.BRANCH_NAME = none) →
      (mainRun env S invoke).1 = [] ∧ (mainRun env S invoke).2.1 = [] ∧
        exceptIsOk (mainRun env S invoke).2.2 = false) ∧
    (env.MAX_COMMITS = none → resolveMaxCommits env = Except.ok 2) := by
  constructor
  · intro hmiss
    have hfalse : (pyTruthy env.REPO_URL && pyTruthy env.BRANCH_NAME) = false := by
      rcases hmiss with h | h <;> simp [pyTruthy, h]
    rw [mainRun]
    rcases hm : resolveMaxCommits env with e | m <;> simp only [hm]
    · refine ⟨?_, ?_, ?_⟩ <;> trivial
    · simp only [hfalse, Bool.false_eq_true, if_false]
      refine ⟨?_, ?_, ?_⟩ <;> trivial
  · intro hm
    simp [resolveMaxCommits, hm]

/-- Witness for C6: the concrete environment with `REPO_URL` and
`MAX_COMMITS` both absent. -/
theorem config_validation_witness :
    ((mainRun env₀ S₀ (fun _ => "")).1 = [] ∧
        (mainRun env₀ S₀ (fun _ => "")).2.1 = [] ∧
        exceptIsOk (mainRun env₀ S₀ (fun _ => "")).2.2 = false) ∧
      resolveMaxCommits env₀ = Except.ok 2 :=
  ⟨(config_validation env₀ S₀ (fun _ => "")).1 (Or.inl rfl),
   (config_validation env₀ S₀ (fun _ => "")).2 rfl⟩

/-! ## Claim C7 -/

set_option maxRecDepth 40000 in
/-- C7: for every commit list (the empty one included)
`generate_release_notes` issues exactly one model call, and its prompt
contains the four fixed template sections. -/
theorem generate_release_notes_structure (invoke : String → String)
    (commits : List CommitRecord) :
    (generate_release_notes invoke commits).1 =
        [buildPrompt (serializeCommits commits)] ∧
      containsSubstr (buildPrompt (serializeCommits commits))
          "1. Overview of changes" = true ∧
      containsSubstr (buildPrompt (serializeCommits commits))
          "2. Technical breakdown by category" = true ∧
      containsSubstr (buildPrompt (serializeCommits commits))
          "3. Notable code modifications" = true ∧
      containsSubstr (buildPrompt (serializeCommits commits))
          "4. Files changed summary" = true := by
  refine ⟨rfl, ?_, ?_, ?_, ?_⟩ <;>
    exact containsSubstr_buildPrompt _ _ (by decide)

/-! ## Claim C8 -/

/-- C8: every HTTP request a history run issues (list, details, diff, also
on failing runs) carries the bearer-token authorization header, and the
diff headers differ from the details headers only in the `Accept` value
(diff media type instead of JSON). -/
theorem request_headers (A : Analyzer) (S : GitHubServer) (N : Nat) :
    (∀ req ∈ (get_commit_history A S N).1,
        req.headers.authorization = "Bearer " ++ pyStrOfOpt A.token) ∧
      (diffHeaders A.token).authorization = (baseHeaders A.token).authorization ∧
      (diffHeaders A.token).accept = "application/vnd.github.v3.diff" ∧
      (baseHeaders A.token).accept = "application/vnd.github+json" := by
  refine ⟨?_, rfl, rfl, rfl⟩
  intro req hreq
  rw [get_commit_history] at hreq
  rcases hl : raise_for_status (S.listResp N) with e | shas <;>
    simp only [hl] at hreq
  · simp only [List.mem_singleton] at hreq
    subst hreq
    rfl
  · simp only [List.mem_cons] at hreq
    rcases hreq with rfl | hreq
    · rfl
    · exact processCommits_auth A S shas req hreq

/-- Witness for C8: the list request of the concrete run carries the
bearer header built from the (absent) token. -/
theorem request_headers_witness :
    listReq₀.headers.authorization = "Bearer " ++ pyStrOfOpt A₀.token :=
  (request_headers A₀ S₀ 5).1 listReq₀ (by decide)

/-! ## Claim C9 -/

/-- C9: a missing GitHub token is not a configuration error — with
`GITHUB_TOKEN` absent but `REPO_URL` and `BRANCH_NAME` set (and the URL
parseable), the run passes validation and issues the list request, whose
authorization header is literally `Bearer None` (and whose `per_page`
parameter shows the default count 2). -/
theorem missing_token_proceeds (url branch o r : String) (S : GitHubServer)
    (invoke : String → String) (hu : url ≠ "") (hb : branch ≠ "")
    (hp : _parse_repo_url url = Except.ok (o, r)) :
    (mainRun { REPO_URL := some url, MAX_COMMITS := none,
               BRANCH_NAME := some branch, GITHUB_TOKEN := none }
        S invoke).1.head? =
      some { url := commitsUrl o r,
             headers := { authorization := "Bearer None",
                          accept := "application/vnd.github+json" },
             params := [("per_page", "2"), ("sha", branch)] } := by
  rw [mainRun]
  have hres : resolveMaxCommits
      { REPO_URL := some url, MAX_COMMITS := none,
        BRANCH_NAME := some branch, GITHUB_TOKEN := none } = Except.ok 2 := rfl
  simp only [hres]
  have hcond : (pyTruthy (some url) && pyTruthy (some branch)) = true := by
    simp [pyTruthy, hu, hb]
  simp only [hcond, if_true]
  simp only [mkAnalyzer, hp]
  rcases hh : (get_commit_history
      { repo_url := url, branch := branch, token := none,
        owner := o, repo := r } S (Int.toNat 2)).2 with e | recs <;>
    simp only [hh]
  all_goals
    rw [get_commit_history]
    rcases hl : raise_for_status (GitHubServer.listResp S (Int.toNat 2)) with e2 | shas <;>
      simp only [hl] <;> rfl

/-- Witness for C9 at a concrete URL, branch and server. -/
theorem missing_token_proceeds_witness :
    (mainRun { REPO_URL := some "https://github.com/octo/repo",
               MAX_COMMITS := none, BRANCH_NAME := some "main",
               GITHUB_TOKEN := none }
        S₀ (fun _ => "")).1.head? =
      some { url := commitsUrl "octo" "repo",
             headers := { authorization := "Bearer None",
                          accept := "application/vnd.github+json" },
             params := [("per_page", "2"), ("sha", "main")] } :=
  missing_token_proceeds "https://github.com/octo/repo" "main" "octo" "repo"
    S₀ (fun _ => "") (by decide) (by decide) (by decide)

/-! ## Claim C10 -/

/-- C10: the parsed owner/name pair depends only on the URL path — two
URLs whose parsed paths yield the same first two split components (in
particular any two URLs with identical paths, whatever their scheme, host,
query or fragment, or with extra path segments beyond the second) parse to
the same result. -/
theorem parse_depends_only_on_path (u1 u2 : String) (r1 r2 : SplitResult)
    (h1 : urlparseM u1 = Except.ok r1) (h2 : urlparseM u2 = Except.ok r2)
    (hp : (pathParts r1.path).take 2 = (pathParts r2.path).take 2) :
    _parse_repo_url u1 = _parse_repo_url u2 := by
  unfold _parse_repo_url
  simp only [h1, h2]
  rcases hq1 : pathParts r1.path with _ | ⟨a, _ | ⟨b, t⟩⟩ <;>
    rcases hq2 : pathParts r2.path with _ | ⟨c, _ | ⟨d, t2⟩⟩ <;>
      rw [hq1, hq2] at hp <;>
      simp_all [List.take_succ_cons]

/-- Witness for C10: same path segments `octo/repo` under different
scheme, host, query, fragment and a trailing extra segment. -/
theorem parse_depends_only_on_path_witness :
    _parse_repo_url "https://github.com/octo/repo?tab=readme#top" =
      _parse_repo_url "ftp://example.org/octo/repo/extra" :=
  parse_depends_only_on_path
    "https://github.com/octo/repo?tab=readme#top"
    "ftp://example.org/octo/repo/extra"
    { scheme := "https", netloc := "github.com", path := "/octo/repo",
      query := "tab=readme", fragment := "top" }
    { scheme := "ftp", netloc := "example.org", path := "/octo/repo/extra",
      query := "", fragment := "" }
    (by decide) (by decide) (by decide)
